import Mathlib

/-!
Shallow embedding of the osin-dynamodb storage adapter
(`osindynamodb.go`, package `osindynamodb`).

Modelling conventions:
* Time instants are `Int` values counting seconds since an arbitrary epoch.
  `time.Time.Before` is `<`; `CreatedAt.Add(time.Duration(ExpiresIn) * time.Second)`
  is `createdAt + expiresIn`.  Loads take the value of `time.Now()` as an
  explicit `now` parameter.
* `json.Marshal` / `json.Unmarshal` are modelled symbolically: the serialized
  form of a record is an opaque tagged value (`StrVal.jsonAccess a`, ...),
  injective by construction, which is how `encoding/json` behaves on these
  record types (deterministic output, faithful round trip).  `json.Marshal`
  fails exactly when the record reaches an unserializable user-data payload
  (in Go: a channel/function value inside the `UserData interface{}` field).
* A DynamoDB item is an association list from attribute names to attribute
  values; lookup takes the first (most recent) binding, so Go's
  `items[k] = v` map write is modelled by prepending.
* Every `dynamodb` API call can fail with an opaque store error.  The call
  outcomes are supplied by an oracle `failures : Nat -> Option Nat` indexed
  by the number of calls issued so far on the connection, which lets a
  theorem talk about a specific call failing (e.g. the second write of the
  access/refresh dual write).
* The attribute values produced by `UserData.ToAttributeValues` are modelled
  as string-valued attributes (the shape the repository's own
  `UserDataTest.ToAttributeValues` produces).
-/

/-- The `UserData interface{}` payload carried by osin records.
`projectable` models a value implementing the package's `UserData` interface
(`ToAttributeValues() map[string]*dynamodb.AttributeValue`); `unserializable`
models a value on which `json.Marshal` fails. -/
inductive UserDataVal where
  | empty
  | plain (s : String)
  | projectable (attrs : List (String × String)) (s : String)
  | unserializable
  deriving DecidableEq

/-- Whether `json.Marshal` succeeds on this payload. -/
def UserDataVal.serializableB : UserDataVal → Bool
  | .unserializable => false
  | _ => true

/-- osin.DefaultClient: Id, Secret, RedirectUri, UserData. -/
structure DefaultClient where
  id : String
  secret : String
  redirectUri : String
  userData : UserDataVal
  deriving DecidableEq

def DefaultClient.serializableB (c : DefaultClient) : Bool :=
  c.userData.serializableB

/-- osin.AuthorizeData (the embedded client is always materialised as a
DefaultClient snapshot, which is what this adapter stores and decodes). -/
structure AuthorizeData where
  client : DefaultClient
  code : String
  expiresIn : Int
  scope : String
  redirectUri : String
  state : String
  createdAt : Int
  userData : UserDataVal
  deriving DecidableEq

def AuthorizeData.serializableB (a : AuthorizeData) : Bool :=
  a.client.serializableB && a.userData.serializableB

/-- osin.AuthorizeData.ExpireAt: CreatedAt + ExpiresIn seconds. -/
def AuthorizeData.expireAt (a : AuthorizeData) : Int :=
  a.createdAt + a.expiresIn

/-- osin.AccessData: Client, AuthorizeData (pointer, possibly nil),
AccessData (pointer to the previous access data, possibly nil), AccessToken,
RefreshToken, ExpiresIn, Scope, RedirectUri, CreatedAt, UserData. -/
inductive AccessData where
  | mk (client : DefaultClient) (authorizeData : Option AuthorizeData)
       (accessData : Option AccessData) (accessToken : String)
       (refreshToken : String) (expiresIn : Int) (scope : String)
       (redirectUri : String) (createdAt : Int) (userData : UserDataVal)

def AccessData.client : AccessData → DefaultClient
  | .mk cl _ _ _ _ _ _ _ _ _ => cl

def AccessData.accessToken : AccessData → String
  | .mk _ _ _ t _ _ _ _ _ _ => t

def AccessData.refreshToken : AccessData → String
  | .mk _ _ _ _ r _ _ _ _ _ => r

def AccessData.expiresIn : AccessData → Int
  | .mk _ _ _ _ _ e _ _ _ _ => e

def AccessData.createdAt : AccessData → Int
  | .mk _ _ _ _ _ _ _ _ ca _ => ca

def AccessData.userData : AccessData → UserDataVal
  | .mk _ _ _ _ _ _ _ _ _ u => u

/-- Whether `json.Marshal` succeeds on the whole record (it recurses through the
embedded client, the two optional nested records and the user data). -/
def AccessData.serializableB : AccessData → Bool
  | .mk cl ad acd _ _ _ _ _ _ u =>
    cl.serializableB &&
    (match ad with
     | some x => x.serializableB
     | none => true) &&
    (match acd with
     | some x => AccessData.serializableB x
     | none => true) &&
    u.serializableB

/-- osin.AccessData.ExpireAt: CreatedAt + ExpiresIn seconds. -/
def AccessData.expireAt (a : AccessData) : Int :=
  a.createdAt + a.expiresIn

/-- A DynamoDB string attribute value, symbolically: either a plain string
(as written for the key attributes and by user-data projections) or the
`json.Marshal` output of one of the three record types. -/
inductive StrVal where
  | str (s : String)
  | jsonClient (c : DefaultClient)
  | jsonAuthorize (a : AuthorizeData)
  | jsonAccess (a : AccessData)

/-- dynamodb.AttributeValue with its S (string) member set, the only shape
this adapter ever writes or reads. -/
structure AttributeValue where
  S : StrVal

/-- A DynamoDB item: attribute name to attribute value.  First binding wins
on lookup, so a later map write is modelled by prepending. -/
abbrev Item := List (String × AttributeValue)

def itemGet : Item → String → Option AttributeValue
  | [], _ => none
  | (k, v) :: rest, key => if k = key then some v else itemGet rest key

/-- Go `items[k] = v` on the item under construction. -/
def itemPut (it : Item) (k : String) (v : AttributeValue) : Item :=
  (k, v) :: it

/-- One DynamoDB table: primary-key string to stored item. -/
abbrev Tbl := String → Option Item

/-- PutItem semantics: replace the whole item stored under the key. -/
def tblPut (t : Tbl) (key : String) (item : Item) : Tbl :=
  fun k => if k = key then some item else t k

/-- DeleteItem semantics: deleting an absent key is not an error. -/
def tblDel (t : Tbl) (key : String) : Tbl :=
  fun k => if k = key then none else t k

/-- The four tables named by StorageConfig (ClientTable, AuthorizeTable,
AccessTable, RefreshTable). -/
structure DB where
  clientTable : Tbl
  authorizeTable : Tbl
  accessTable : Tbl
  refreshTable : Tbl

def emptyTbl : Tbl := fun _ => none

def emptyDB : DB :=
  { clientTable := emptyTbl, authorizeTable := emptyTbl,
    accessTable := emptyTbl, refreshTable := emptyTbl }

/-- A live `*dynamodb.DynamoDB` connection together with the outcome oracle
for its successive API calls (`failures n` is the outcome of the n-th call:
`none` = success, `some e` = the call fails with opaque store error `e`) and
the control-plane state (`tables`: names of the tables created so far, in
creation order). -/
structure Conn where
  db : DB
  tables : List String
  failures : Nat → Option Nat
  calls : Nat

/-- Issue one DynamoDB API call and consume its scripted outcome. -/
def dbCall (c : Conn) : Option Nat × Conn :=
  (c.failures c.calls, { c with calls := c.calls + 1 })

def connWith (db0 : DB) (f : Nat → Option Nat) : Conn :=
  { db := db0, tables := [], failures := f, calls := 0 }

/-- A connection whose store calls all succeed. -/
def okConn (db0 : DB) : Conn :=
  connWith db0 (fun _ => none)

/-- The error taxonomy of the adapter: the package-level `Err*` values, the
two `encoding/json` failure modes, the Go nil-pointer dereference a load
performs on an item that lacks the `json` attribute, and opaque wrapped
store errors. -/
inductive Err where
  | clientNotFound
  | authorizeNotFound
  | accessNotFound
  | refreshNotFound
  | tokenExpired
  | marshal
  | unmarshal
  | nilDeref
  | store (code : Nat)
  deriving DecidableEq

def marshalClient (cl : DefaultClient) : Except Err StrVal :=
  if cl.serializableB then Except.ok (StrVal.jsonClient cl) else Except.error Err.marshal

def marshalAuthorize (a : AuthorizeData) : Except Err StrVal :=
  if a.serializableB then Except.ok (StrVal.jsonAuthorize a) else Except.error Err.marshal

def marshalAccess (a : AccessData) : Except Err StrVal :=
  if a.serializableB then Except.ok (StrVal.jsonAccess a) else Except.error Err.marshal

def unmarshalClient : StrVal → Except Err DefaultClient
  | .jsonClient cl => Except.ok cl
  | _ => Except.error Err.unmarshal

def unmarshalAuthorize : StrVal → Except Err AuthorizeData
  | .jsonAuthorize a => Except.ok a
  | _ => Except.error Err.unmarshal

def unmarshalAccess : StrVal → Except Err AccessData
  | .jsonAccess a => Except.ok a
  | _ => Except.error Err.unmarshal

/-- The type switch `accessData.UserData.(UserData)` followed by
`ToAttributeValues()`: `some attrs` iff the payload implements the
projection interface. -/
def toAttributeValues : UserDataVal → Option (List (String × String))
  | .projectable attrs _ => some attrs
  | _ => none

/-- The keys a payload projects (empty when it does not project). -/
def projKeys (u : UserDataVal) : List String :=
  match toAttributeValues u with
  | some attrs => attrs.map Prod.fst
  | none => []

/-- The merge loop of SaveAccess (and of the part_003 revision's
SaveRefresh): `for k, v := range userData.ToAttributeValues() { items[k] = v }`. -/
def mergeUserData (it : Item) (u : UserDataVal) : Item :=
  match toAttributeValues u with
  | some attrs => attrs.foldl (fun acc kv => itemPut acc kv.1 ⟨.str kv.2⟩) it
  | none => it

/-- Storage.CreateClient: marshal the client, then PutItem
{id: client.GetId(), json: data} into ClientTable. -/
def CreateClient (c : Conn) (client : DefaultClient) : Except Err Unit × Conn :=
  match marshalClient client with
  | .error e => (.error e, c)
  | .ok data =>
    let item : Item := [("id", ⟨.str client.id⟩), ("json", ⟨data⟩)]
    match dbCall c with
    | (some e, c₁) => (.error (.store e), c₁)
    | (none, c₁) =>
      (.ok (), { c₁ with db := { c₁.db with
        clientTable := tblPut c₁.db.clientTable client.id item } })

/-- Storage.GetClient: GetItem by id from ClientTable; ErrClientNotFound on
an empty response; otherwise unmarshal resp.Item["json"].S into a
DefaultClient.  (Reading the attribute of a missing binding is a Go
nil-pointer dereference, modelled as Err.nilDeref.) -/
def GetClient (c : Conn) (id : String) : Except Err DefaultClient × Conn :=
  match dbCall c with
  | (some e, c₁) => (.error (.store e), c₁)
  | (none, c₁) =>
    match c₁.db.clientTable id with
    | none => (.error .clientNotFound, c₁)
    | some item =>
      match itemGet item "json" with
      | none => (.error .nilDeref, c₁)
      | some av =>
        match unmarshalClient av.S with
        | .error e => (.error e, c₁)
        | .ok client => (.ok client, c₁)

/-- Storage.RemoveClient: DeleteItem by id from ClientTable. -/
def RemoveClient (c : Conn) (id : String) : Except Err Unit × Conn :=
  match dbCall c with
  | (some e, c₁) => (.error (.store e), c₁)
  | (none, c₁) =>
    (.ok (), { c₁ with db := { c₁.db with
      clientTable := tblDel c₁.db.clientTable id } })

/-- Storage.SaveAuthorize: marshal, then PutItem
{code: authorizeData.Code, json: data} into AuthorizeTable. -/
def SaveAuthorize (c : Conn) (a : AuthorizeData) : Except Err Unit × Conn :=
  match marshalAuthorize a with
  | .error e => (.error e, c)
  | .ok data =>
    let item : Item := [("code", ⟨.str a.code⟩), ("json", ⟨data⟩)]
    match dbCall c with
    | (some e, c₁) => (.error (.store e), c₁)
    | (none, c₁) =>
      (.ok (), { c₁ with db := { c₁.db with
        authorizeTable := tblPut c₁.db.authorizeTable a.code item } })

/-- Storage.LoadAuthorize: GetItem by code; ErrAuthorizeNotFound on an empty
response; unmarshal the `json` attribute (the code first materialises the
decode target with a fresh DefaultClient snapshot, which is absorbed by the
symbolic unmarshal); then the expiry check
`authorizeData.ExpireAt().Before(time.Now())` returns ErrTokenExpired.
The record itself is never deleted here. -/
def LoadAuthorize (c : Conn) (code : String) (now : Int) :
    Except Err AuthorizeData × Conn :=
  match dbCall c with
  | (some e, c₁) => (.error (.store e), c₁)
  | (none, c₁) =>
    match c₁.db.authorizeTable code with
    | none => (.error .authorizeNotFound, c₁)
    | some item =>
      match itemGet item "json" with
      | none => (.error .nilDeref, c₁)
      | some av =>
        match unmarshalAuthorize av.S with
        | .error e => (.error e, c₁)
        | .ok a =>
          if a.expireAt < now then (.error .tokenExpired, c₁)
          else (.ok a, c₁)

/-- Storage.RemoveAuthorize: DeleteItem by code from AuthorizeTable. -/
def RemoveAuthorize (c : Conn) (code : String) : Except Err Unit × Conn :=
  match dbCall c with
  | (some e, c₁) => (.error (.store e), c₁)
  | (none, c₁) =>
    (.ok (), { c₁ with db := { c₁.db with
      authorizeTable := tblDel c₁.db.authorizeTable code } })

/-- Storage.SaveRefresh: marshal the access record again, then PutItem
{token: accessData.RefreshToken, json: data} into RefreshTable.  Note this
revision does NOT merge user-data attributes into the refresh item. -/
def SaveRefresh (c : Conn) (a : AccessData) : Except Err Unit × Conn :=
  match marshalAccess a with
  | .error e => (.error e, c)
  | .ok data =>
    let item : Item := [("token", ⟨.str a.refreshToken⟩), ("json", ⟨data⟩)]
    match dbCall c with
    | (some e, c₁) => (.error (.store e), c₁)
    | (none, c₁) =>
      (.ok (), { c₁ with db := { c₁.db with
        refreshTable := tblPut c₁.db.refreshTable a.refreshToken item } })

/-- Storage.SaveAccess: marshal; build {token: AccessToken, json: data};
merge the user-data projection when the payload implements UserData; PutItem
into AccessTable; and when RefreshToken is non-empty, return
SaveRefresh(accessData) as the overall result. -/
def SaveAccess (c : Conn) (a : AccessData) : Except Err Unit × Conn :=
  match marshalAccess a with
  | .error e => (.error e, c)
  | .ok data =>
    let item : Item :=
      mergeUserData [("token", ⟨.str a.accessToken⟩), ("json", ⟨data⟩)] a.userData
    match dbCall c with
    | (some e, c₁) => (.error (.store e), c₁)
    | (none, c₁) =>
      let c₂ : Conn := { c₁ with db := { c₁.db with
        accessTable := tblPut c₁.db.accessTable a.accessToken item } }
      if a.refreshToken ≠ "" then SaveRefresh c₂ a
      else (.ok (), c₂)

/-- Storage.LoadAccess: GetItem by token from AccessTable;
ErrAccessNotFound on an empty response; unmarshal the `json` attribute (the
code pre-allocates the decode target: a fresh DefaultClient snapshot and,
when config.CreateUserData is set, the expected user-data shape — both
absorbed by the symbolic unmarshal); ErrTokenExpired when
`accessData.ExpireAt().Before(time.Now())`; never deletes. -/
def LoadAccess (c : Conn) (token : String) (now : Int) :
    Except Err AccessData × Conn :=
  match dbCall c with
  | (some e, c₁) => (.error (.store e), c₁)
  | (none, c₁) =>
    match c₁.db.accessTable token with
    | none => (.error .accessNotFound, c₁)
    | some item =>
      match itemGet item "json" with
      | none => (.error .nilDeref, c₁)
      | some av =>
        match unmarshalAccess av.S with
        | .error e => (.error e, c₁)
        | .ok a =>
          if a.expireAt < now then (.error .tokenExpired, c₁)
          else (.ok a, c₁)

/-- Storage.RemoveAccess: DeleteItem by token from AccessTable (only). -/
def RemoveAccess (c : Conn) (token : String) : Except Err Unit × Conn :=
  match dbCall c with
  | (some e, c₁) => (.error (.store e), c₁)
  | (none, c₁) =>
    (.ok (), { c₁ with db := { c₁.db with
      accessTable := tblDel c₁.db.accessTable token } })

/-- Storage.LoadRefresh: GetItem by token from RefreshTable;
ErrRefreshNotFound on an empty response; unmarshal; same expiry check as
LoadAccess, against the same CreatedAt/ExpiresIn fields; never deletes. -/
def LoadRefresh (c : Conn) (token : String) (now : Int) :
    Except Err AccessData × Conn :=
  match dbCall c with
  | (some e, c₁) => (.error (.store e), c₁)
  | (none, c₁) =>
    match c₁.db.refreshTable token with
    | none => (.error .refreshNotFound, c₁)
    | some item =>
      match itemGet item "json" with
      | none => (.error .nilDeref, c₁)
      | some av =>
        match unmarshalAccess av.S with
        | .error e => (.error e, c₁)
        | .ok a =>
          if a.expireAt < now then (.error .tokenExpired, c₁)
          else (.ok a, c₁)

/-- Storage.RemoveRefresh: DeleteItem by token from RefreshTable. -/
def RemoveRefresh (c : Conn) (token : String) : Except Err Unit × Conn :=
  match dbCall c with
  | (some e, c₁) => (.error (.store e), c₁)
  | (none, c₁) =>
    (.ok (), { c₁ with db := { c₁.db with
      refreshTable := tblDel c₁.db.refreshTable token } })

namespace Rev3

/-- SaveRefresh of the repository's other adapter revision (src/unnamed/
part_003): identical to the primary SaveRefresh except that it also merges
the user-data projection into the refresh item, exactly as SaveAccess does. -/
def SaveRefresh (c : Conn) (a : AccessData) : Except Err Unit × Conn :=
  match marshalAccess a with
  | .error e => (.error e, c)
  | .ok data =>
    let item : Item :=
      mergeUserData [("token", ⟨.str a.refreshToken⟩), ("json", ⟨data⟩)] a.userData
    match dbCall c with
    | (some e, c₁) => (.error (.store e), c₁)
    | (none, c₁) =>
      (.ok (), { c₁ with db := { c₁.db with
        refreshTable := tblPut c₁.db.refreshTable a.refreshToken item } })

end Rev3

/-- StorageConfig's four table names. -/
structure StorageConfig where
  clientTable : String
  authorizeTable : String
  accessTable : String
  refreshTable : String

/-- CreateStorageConfig: prefixed table names. -/
def CreateStorageConfig (pfx : String) : StorageConfig :=
  { accessTable := pfx ++ "access",
    clientTable := pfx ++ "client",
    refreshTable := pfx ++ "refresh",
    authorizeTable := pfx ++ "authorize" }

/-- createTable: db.CreateTable (on success the table now exists), then
db.WaitUntilTableExists; either call's error is returned unchanged and a
wait failure does not undo the creation. -/
def createTable (c : Conn) (name : String) : Except Err Unit × Conn :=
  match dbCall c with
  | (some e, c₁) => (.error (.store e), c₁)
  | (none, c₁) =>
    let c₂ : Conn := { c₁ with tables := c₁.tables ++ [name] }
    match dbCall c₂ with
    | (some e, c₃) => (.error (.store e), c₃)
    | (none, c₃) => (.ok (), c₃)

/-- The order in which CreateSchema's createParams list the tables. -/
def schemaTableOrder (cfg : StorageConfig) : List String :=
  [cfg.accessTable, cfg.authorizeTable, cfg.clientTable, cfg.refreshTable]

/-- Storage.CreateSchema: createTable for AccessTable, AuthorizeTable,
ClientTable, RefreshTable in that order, returning the first error and
stopping the loop there. -/
def CreateSchema (c : Conn) (cfg : StorageConfig) : Except Err Unit × Conn :=
  match createTable c cfg.accessTable with
  | (.error e, c₁) => (.error e, c₁)
  | (.ok _, c₁) =>
    match createTable c₁ cfg.authorizeTable with
    | (.error e, c₂) => (.error e, c₂)
    | (.ok _, c₂) =>
      match createTable c₂ cfg.clientTable with
      | (.error e, c₃) => (.error e, c₃)
      | (.ok _, c₃) =>
        match createTable c₃ cfg.refreshTable with
        | (.error e, c₄) => (.error e, c₄)
        | (.ok _, c₄) => (.ok (), c₄)

/-- Last-write-wins lookup over the projected attribute list (Go map
semantics for the merge loop). -/
def attrsFind : List (String × String) → String → Option String
  | [], _ => none
  | (k, v) :: rest, key =>
    match attrsFind rest key with
    | some w => some w
    | none => if k = key then some v else none

theorem itemGet_itemPut (it : Item) (k : String) (v : AttributeValue)
    (key : String) :
    itemGet (itemPut it k v) key = if k = key then some v else itemGet it key :=
  rfl

theorem itemGet_foldl_attrs (attrs : List (String × String)) (it : Item)
    (key : String) :
    itemGet (attrs.foldl (fun acc kv => itemPut acc kv.1 ⟨.str kv.2⟩) it) key
      = match attrsFind attrs key with
        | some w => some ⟨.str w⟩
        | none => itemGet it key := by
  induction attrs generalizing it with
  | nil => rfl
  | cons kv rest ih =>
    obtain ⟨k, v⟩ := kv
    rw [List.foldl_cons, ih]
    cases h : attrsFind rest key with
    | some w => simp [attrsFind, h]
    | none =>
      by_cases hk : k = key <;>
        simp [attrsFind, h, itemGet_itemPut, hk]

theorem mergeUserData_get (u : UserDataVal) (it : Item) (key : String) :
    itemGet (mergeUserData it u) key
      = match toAttributeValues u with
        | some attrs =>
          (match attrsFind attrs key with
           | some w => some ⟨.str w⟩
           | none => itemGet it key)
        | none => itemGet it key := by
  cases u <;> simp [mergeUserData, toAttributeValues, itemGet_foldl_attrs]

theorem attrsFind_eq_none_of_not_mem (attrs : List (String × String))
    (key : String) (h : key ∉ attrs.map Prod.fst) :
    attrsFind attrs key = none := by
  induction attrs with
  | nil => rfl
  | cons kv rest ih =>
    obtain ⟨k, v⟩ := kv
    simp only [List.map_cons, List.mem_cons] at h
    push_neg at h
    simp [attrsFind, ih h.2, h.1.symm]

theorem mergeUserData_get_of_not_mem (u : UserDataVal) (it : Item)
    (key : String) (h : key ∉ projKeys u) :
    itemGet (mergeUserData it u) key = itemGet it key := by
  rw [mergeUserData_get]
  cases u <;> simp only [toAttributeValues]
  rw [attrsFind_eq_none_of_not_mem]
  simpa [projKeys, toAttributeValues] using h

theorem attrsFind_mem_of_eq_some (attrs : List (String × String))
    (key w : String) (h : attrsFind attrs key = some w) :
    (key, w) ∈ attrs := by
  induction attrs with
  | nil => simp [attrsFind] at h
  | cons kv rest ih =>
    obtain ⟨k, v⟩ := kv
    cases hr : attrsFind rest key with
    | some w' =>
      rw [attrsFind, hr] at h
      obtain rfl : w' = w := by simpa using h
      exact List.mem_cons_of_mem _ (ih hr)
    | none =>
      rw [attrsFind, hr] at h
      by_cases hk : k = key
      · rw [if_pos hk] at h
        obtain rfl : v = w := by simpa using h
        simp [hk]
      · rw [if_neg hk] at h
        simp at h

theorem attrsFind_isSome_of_mem (attrs : List (String × String))
    (key : String) (h : key ∈ attrs.map Prod.fst) :
    ∃ w, attrsFind attrs key = some w := by
  induction attrs with
  | nil => simp at h
  | cons kv rest ih =>
    obtain ⟨k, v⟩ := kv
    cases hr : attrsFind rest key with
    | some w' => exact ⟨w', by simp [attrsFind, hr]⟩
    | none =>
      simp only [List.map_cons, List.mem_cons] at h
      rcases h with h1 | h2
      · exact ⟨v, by subst h1; simp [attrsFind, hr]⟩
      · obtain ⟨w, hw⟩ := ih h2
        rw [hw] at hr
        exact absurd hr (by simp)

theorem attrsFind_mem (attrs : List (String × String)) (key : String)
    (h : key ∈ attrs.map Prod.fst) :
    ∃ w, attrsFind attrs key = some w ∧ (key, w) ∈ attrs := by
  obtain ⟨w, hw⟩ := attrsFind_isSome_of_mem attrs key h
  exact ⟨w, hw, attrsFind_mem_of_eq_some attrs key w hw⟩

/-- C1: a successful SaveAccess of a record with a non-empty refresh_token
also writes a refresh record under the refresh-token key whose `json`
attribute is the same serialized payload as the access row's, so a
subsequent LoadRefresh on that refresh token (before expiry) returns the
equivalent record without any explicit SaveRefresh call. -/
theorem saveAccess_mirrors_refreshRecord
    (c : Conn) (a : AccessData) (now : Int)
    (hok : ∀ n, c.failures n = none)
    (hser : a.serializableB = true)
    (hrt : a.refreshToken ≠ "")
    (hjson : "json" ∉ projKeys a.userData)
    (hexp : ¬ a.expireAt < now) :
    (SaveAccess c a).1 = .ok () ∧
    (SaveAccess c a).2.db.refreshTable a.refreshToken =
      some [("token", ⟨.str a.refreshToken⟩), ("json", ⟨.jsonAccess a⟩)] ∧
    (∃ it, (SaveAccess c a).2.db.accessTable a.accessToken = some it ∧
      itemGet it "json" = some ⟨.jsonAccess a⟩) ∧
    (LoadRefresh (SaveAccess c a).2 a.refreshToken now).1 = Except.ok a := by
  refine ⟨?_, ?_, ?_, ?_⟩ <;>
    simp [SaveAccess, SaveRefresh, LoadRefresh, marshalAccess, unmarshalAccess,
      dbCall, tblPut, itemGet, mergeUserData_get_of_not_mem _ _ _ hjson,
      hok, hser, hrt, hexp]

def clientEx : DefaultClient :=
  { id := "1234", secret := "aabbccdd", redirectUri := "/dev/null",
    userData := .empty }

/-- The access record of the repository's TestAccess scenario: token "1",
refresh token "r9999", expires_in 3600, a projecting user-data payload. -/
def accessEx : AccessData :=
  .mk clientEx none none "1" "r9999" 3600 "" "/dev/null" 0
    (.projectable [("username", "kamil")] "ud")

theorem saveAccess_mirrors_refreshRecord_witness :
    (SaveAccess (okConn emptyDB) accessEx).1 = .ok () ∧
    (SaveAccess (okConn emptyDB) accessEx).2.db.refreshTable
        accessEx.refreshToken =
      some [("token", ⟨.str accessEx.refreshToken⟩),
            ("json", ⟨.jsonAccess accessEx⟩)] ∧
    (∃ it, (SaveAccess (okConn emptyDB) accessEx).2.db.accessTable
        accessEx.accessToken = some it ∧
      itemGet it "json" = some ⟨.jsonAccess accessEx⟩) ∧
    (LoadRefresh (SaveAccess (okConn emptyDB) accessEx).2
        accessEx.refreshToken 0).1 = Except.ok accessEx :=
  saveAccess_mirrors_refreshRecord (okConn emptyDB) accessEx 0
    (fun _ => rfl) rfl (by decide) (by decide) (by decide)

/-- The boundary record for the expiry check: created_at = 0,
expires_in = 3600, so its expiry instant is exactly 3600. -/
def accessC2 : AccessData :=
  .mk clientEx none none "1" "" 3600 "" "" 0 .empty

/-- A store already holding accessC2 under access-token key "1". -/
def dbC2 : DB :=
  { emptyDB with accessTable := tblPut emptyTbl "1" [("token", ⟨.str "1"⟩), ("json", ⟨.jsonAccess accessC2⟩)] }

def connC2 : Conn :=
  okConn dbC2

/-- C2 counterexample: at now = 3600 the stored record has created_at equal
to now − expires_in, which the claim says is reported Expired; the code's
check `ExpireAt().Before(now)` is strict, so LoadAccess returns the record,
not ErrTokenExpired. -/
theorem loadAccess_boundary_counterexample :
    accessC2.createdAt = 3600 - accessC2.expiresIn ∧
    (LoadAccess connC2 "1" 3600).1 = Except.ok accessC2 ∧
    (LoadAccess connC2 "1" 3600).1 ≠ Except.error Err.tokenExpired := by
  have h2 : (LoadAccess connC2 "1" 3600).1 = Except.ok accessC2 := rfl
  refine ⟨by decide, h2, ?_⟩
  rw [h2]
  simp

/-- C2 amended: a load reports ErrTokenExpired exactly when the stored
record's created_at + expires_in is strictly before the current time (at
created_at = now − expires_in the record is still returned), and no load
ever modifies the store: the record remains in storage. -/
theorem load_expiry_strict_no_delete :
    (∀ (c : Conn) (code : String) (now : Int) (ad : AuthorizeData) (it : Item),
      (∀ n, c.failures n = none) →
      c.db.authorizeTable code = some it →
      itemGet it "json" = some ⟨.jsonAuthorize ad⟩ →
      ((LoadAuthorize c code now).1 = Except.error Err.tokenExpired ↔
        ad.expireAt < now)) ∧
    (∀ (c : Conn) (token : String) (now : Int) (a : AccessData) (it : Item),
      (∀ n, c.failures n = none) →
      c.db.accessTable token = some it →
      itemGet it "json" = some ⟨.jsonAccess a⟩ →
      ((LoadAccess c token now).1 = Except.error Err.tokenExpired ↔
        a.expireAt < now)) ∧
    (∀ (c : Conn) (token : String) (now : Int) (a : AccessData) (it : Item),
      (∀ n, c.failures n = none) →
      c.db.refreshTable token = some it →
      itemGet it "json" = some ⟨.jsonAccess a⟩ →
      ((LoadRefresh c token now).1 = Except.error Err.tokenExpired ↔
        a.expireAt < now)) ∧
    (∀ (c : Conn) (code : String) (now : Int),
      (LoadAuthorize c code now).2.db = c.db) ∧
    (∀ (c : Conn) (token : String) (now : Int),
      (LoadAccess c token now).2.db = c.db) ∧
    (∀ (c : Conn) (token : String) (now : Int),
      (LoadRefresh c token now).2.db = c.db) := by
  refine ⟨?_, ?_, ?_, ?_, ?_, ?_⟩
  · intro c code now ad it hok hit hjson
    by_cases h : ad.expireAt < now <;>
      simp [LoadAuthorize, dbCall, unmarshalAuthorize, hok, hit, hjson, h]
  · intro c token now a it hok hit hjson
    by_cases h : a.expireAt < now <;>
      simp [LoadAccess, dbCall, unmarshalAccess, hok, hit, hjson, h]
  · intro c token now a it hok hit hjson
    by_cases h : a.expireAt < now <;>
      simp [LoadRefresh, dbCall, unmarshalAccess, hok, hit, hjson, h]
  · intro c code now
    rcases hf : c.failures c.calls with _ | e <;>
      simp only [LoadAuthorize, dbCall, hf] <;>
      (repeat' split) <;> rfl
  · intro c token now
    rcases hf : c.failures c.calls with _ | e <;>
      simp only [LoadAccess, dbCall, hf] <;>
      (repeat' split) <;> rfl
  · intro c token now
    rcases hf : c.failures c.calls with _ | e <;>
      simp only [LoadRefresh, dbCall, hf] <;>
      (repeat' split) <;> rfl

theorem load_expiry_strict_no_delete_witness :
    ((LoadAccess connC2 "1" 7200).1 = Except.error Err.tokenExpired ↔
      accessC2.expireAt < 7200) ∧
    (LoadAccess connC2 "1" 7200).2.db = connC2.db :=
  ⟨load_expiry_strict_no_delete.2.1 connC2 "1" 7200 accessC2
      [("token", ⟨.str "1"⟩), ("json", ⟨.jsonAccess accessC2⟩)]
      (fun _ => rfl) rfl rfl,
   load_expiry_strict_no_delete.2.2.2.2.1 connC2 "1" 7200⟩

/-- C3: RemoveAccess deletes only the access-collection item and leaves the
refresh collection unchanged: afterwards LoadAccess on the removed token is
ErrAccessNotFound while LoadRefresh on the mirrored refresh token still
returns the record. -/
theorem removeAccess_leaves_refresh
    (c : Conn) (token rtoken : String) (a : AccessData) (it : Item)
    (now : Int)
    (hok : ∀ n, c.failures n = none)
    (hmirror : c.db.refreshTable rtoken = some it)
    (hjson : itemGet it "json" = some ⟨.jsonAccess a⟩)
    (hexp : ¬ a.expireAt < now) :
    (RemoveAccess c token).1 = .ok () ∧
    (RemoveAccess c token).2.db.refreshTable = c.db.refreshTable ∧
    (LoadAccess (RemoveAccess c token).2 token now).1 =
      Except.error Err.accessNotFound ∧
    (LoadRefresh (RemoveAccess c token).2 rtoken now).1 = Except.ok a := by
  refine ⟨?_, ?_, ?_, ?_⟩ <;>
    simp [RemoveAccess, LoadAccess, LoadRefresh, dbCall, tblDel,
      unmarshalAccess, hok, hmirror, hjson, hexp]

def refreshItemEx : Item :=
  [("token", ⟨.str "r9999"⟩), ("json", ⟨.jsonAccess accessEx⟩)]

/-- A store holding accessEx under access key "1" and its mirror under
refresh key "r9999". -/
def dbC3 : DB :=
  { emptyDB with
    accessTable := tblPut emptyTbl "1" [("token", ⟨.str "1"⟩), ("json", ⟨.jsonAccess accessEx⟩)],
    refreshTable := tblPut emptyTbl "r9999" refreshItemEx }

theorem removeAccess_leaves_refresh_witness :
    (RemoveAccess (okConn dbC3) "1").1 = .ok () ∧
    (RemoveAccess (okConn dbC3) "1").2.db.refreshTable =
      (okConn dbC3).db.refreshTable ∧
    (LoadAccess (RemoveAccess (okConn dbC3) "1").2 "1" 0).1 =
      Except.error Err.accessNotFound ∧
    (LoadRefresh (RemoveAccess (okConn dbC3) "1").2 "r9999" 0).1 =
      Except.ok accessEx :=
  removeAccess_leaves_refresh (okConn dbC3) "1" "r9999" accessEx
    refreshItemEx 0 (fun _ => rfl) rfl rfl (by decide)

/-- The call-outcome oracle with the second store call (call number 1)
failing: that is the refresh-mirror PutItem inside SaveAccess. -/
def failSecondCall (e : Nat) : Nat → Option Nat :=
  fun n => if n = 1 then some e else none

/-- C4: when the access PutItem succeeds but the refresh-mirror PutItem
fails, SaveAccess returns the second write's error; there is no rollback:
the access record stays stored and loadable, the refresh table is untouched
and the mirror absent. -/
theorem saveAccess_refresh_failure_no_rollback
    (db0 : DB) (a : AccessData) (e : Nat) (now : Int)
    (hser : a.serializableB = true)
    (hrt : a.refreshToken ≠ "")
    (hjson : "json" ∉ projKeys a.userData)
    (hexp : ¬ a.expireAt < now)
    (hmirror0 : db0.refreshTable a.refreshToken = none) :
    (SaveAccess (connWith db0 (failSecondCall e)) a).1 =
      Except.error (Err.store e) ∧
    (SaveAccess (connWith db0 (failSecondCall e)) a).2.db.refreshTable =
      db0.refreshTable ∧
    (LoadAccess (SaveAccess (connWith db0 (failSecondCall e)) a).2
      a.accessToken now).1 = Except.ok a ∧
    (LoadRefresh (SaveAccess (connWith db0 (failSecondCall e)) a).2
      a.refreshToken now).1 = Except.error Err.refreshNotFound := by
  refine ⟨?_, ?_, ?_, ?_⟩ <;>
    simp [SaveAccess, SaveRefresh, LoadAccess, LoadRefresh, connWith,
      failSecondCall, dbCall, tblPut, itemGet, marshalAccess, unmarshalAccess,
      mergeUserData_get_of_not_mem _ _ _ hjson, hser, hrt, hexp, hmirror0]

theorem saveAccess_refresh_failure_no_rollback_witness :
    (SaveAccess (connWith emptyDB (failSecondCall 7)) accessEx).1 =
      Except.error (Err.store 7) ∧
    (SaveAccess (connWith emptyDB (failSecondCall 7)) accessEx).2.db.refreshTable =
      emptyDB.refreshTable ∧
    (LoadAccess (SaveAccess (connWith emptyDB (failSecondCall 7)) accessEx).2
      accessEx.accessToken 0).1 = Except.ok accessEx ∧
    (LoadRefresh (SaveAccess (connWith emptyDB (failSecondCall 7)) accessEx).2
      accessEx.refreshToken 0).1 = Except.error Err.refreshNotFound :=
  saveAccess_refresh_failure_no_rollback emptyDB accessEx 7 0
    rfl (by decide) (by decide) (by decide) rfl

/-- SaveRefresh never touches the access table (whatever branch it takes). -/
theorem saveRefresh_preserves_accessTable (c : Conn) (a : AccessData) :
    (SaveRefresh c a).2.db.accessTable = c.db.accessTable := by
  rcases hf : c.failures c.calls with _ | e <;>
    simp only [SaveRefresh, dbCall, hf] <;>
    (repeat' split) <;> rfl

/-- C5 counterexample: accessEx's user data projects the attribute
{username}: the primary adapter's SaveRefresh writes a refresh item holding
only the key and the opaque payload, with no `username` attribute, so
save_refresh does not merge the projected attributes as claimed. -/
theorem saveRefresh_drops_projected_attrs :
    toAttributeValues accessEx.userData = some [("username", "kamil")] ∧
    (SaveRefresh (okConn emptyDB) accessEx).1 = .ok () ∧
    (SaveRefresh (okConn emptyDB) accessEx).2.db.refreshTable "r9999" =
      some [("token", ⟨.str "r9999"⟩), ("json", ⟨.jsonAccess accessEx⟩)] ∧
    itemGet [("token", ⟨.str "r9999"⟩), ("json", ⟨.jsonAccess accessEx⟩)]
      "username" = none :=
  ⟨rfl, rfl, rfl, rfl⟩

/-- C5 amended: SaveAccess merges the projected user-data attributes into
the written access item (and the part_003 revision's SaveRefresh does the
same for the refresh item), but the primary adapter's SaveRefresh does not:
it writes exactly the key attribute and the opaque payload. -/
theorem saveAccess_merges_userdata_saveRefresh_not
    (c : Conn) (a : AccessData) (attrs : List (String × String)) (s : String)
    (hok : ∀ n, c.failures n = none)
    (hser : a.serializableB = true)
    (hu : a.userData = .projectable attrs s) :
    (∀ k, k ∈ projKeys a.userData →
      ∃ w it, (SaveAccess c a).2.db.accessTable a.accessToken = some it ∧
        itemGet it k = some ⟨.str w⟩ ∧ (k, w) ∈ attrs) ∧
    ((SaveRefresh c a).2.db.refreshTable a.refreshToken =
      some [("token", ⟨.str a.refreshToken⟩), ("json", ⟨.jsonAccess a⟩)]) ∧
    (∀ k, k ∈ projKeys a.userData →
      ∃ w it, (Rev3.SaveRefresh c a).2.db.refreshTable a.refreshToken = some it ∧
        itemGet it k = some ⟨.str w⟩ ∧ (k, w) ∈ attrs) := by
  refine ⟨?_, ?_, ?_⟩
  · intro k hk
    obtain ⟨w, hfind, hmem⟩ := attrsFind_mem attrs k (by
      simpa [projKeys, toAttributeValues, hu] using hk)
    refine ⟨w,
      mergeUserData [("token", ⟨.str a.accessToken⟩), ("json", ⟨.jsonAccess a⟩)]
        a.userData, ?_, ?_, hmem⟩
    · by_cases hrt : a.refreshToken = "" <;>
        simp [SaveAccess, marshalAccess, dbCall, tblPut, hser, hok, hrt,
          saveRefresh_preserves_accessTable]
    · rw [mergeUserData_get, hu]
      simp [toAttributeValues, hfind]
  · simp [SaveRefresh, marshalAccess, dbCall, tblPut, hser, hok]
  · intro k hk
    obtain ⟨w, hfind, hmem⟩ := attrsFind_mem attrs k (by
      simpa [projKeys, toAttributeValues, hu] using hk)
    refine ⟨w,
      mergeUserData [("token", ⟨.str a.refreshToken⟩), ("json", ⟨.jsonAccess a⟩)]
        a.userData, ?_, ?_, hmem⟩
    · simp [Rev3.SaveRefresh, marshalAccess, dbCall, tblPut, hser, hok]
    · rw [mergeUserData_get, hu]
      simp [toAttributeValues, hfind]

theorem saveAccess_merges_userdata_saveRefresh_not_witness :
    (∃ w it, (SaveAccess (okConn emptyDB) accessEx).2.db.accessTable
        accessEx.accessToken = some it ∧
      itemGet it "username" = some ⟨.str w⟩ ∧
      ("username", w) ∈ [("username", "kamil")]) ∧
    ((SaveRefresh (okConn emptyDB) accessEx).2.db.refreshTable
        accessEx.refreshToken =
      some [("token", ⟨.str accessEx.refreshToken⟩),
            ("json", ⟨.jsonAccess accessEx⟩)]) ∧
    (∃ w it, (Rev3.SaveRefresh (okConn emptyDB) accessEx).2.db.refreshTable
        accessEx.refreshToken = some it ∧
      itemGet it "username" = some ⟨.str w⟩ ∧
      ("username", w) ∈ [("username", "kamil")]) := by
  have h := saveAccess_merges_userdata_saveRefresh_not (okConn emptyDB)
    accessEx [("username", "kamil")] "ud" (fun _ => rfl) rfl rfl
  exact ⟨h.1 "username" (by decide), h.2.1, h.2.2 "username" (by decide)⟩

/-- C6: on a key with no stored item each lookup returns its own entity's
NotFound error: ErrClientNotFound, ErrAuthorizeNotFound, ErrAccessNotFound,
ErrRefreshNotFound. -/
theorem lookup_notFound_per_entity
    (c : Conn) (key : String) (now : Int)
    (hok : ∀ n, c.failures n = none) :
    (c.db.clientTable key = none →
      (GetClient c key).1 = Except.error Err.clientNotFound) ∧
    (c.db.authorizeTable key = none →
      (LoadAuthorize c key now).1 = Except.error Err.authorizeNotFound) ∧
    (c.db.accessTable key = none →
      (LoadAccess c key now).1 = Except.error Err.accessNotFound) ∧
    (c.db.refreshTable key = none →
      (LoadRefresh c key now).1 = Except.error Err.refreshNotFound) := by
  refine ⟨?_, ?_, ?_, ?_⟩ <;> intro h <;>
    simp [GetClient, LoadAuthorize, LoadAccess, LoadRefresh, dbCall, hok, h]

theorem lookup_notFound_per_entity_witness :
    (GetClient (okConn emptyDB) "nope").1 = Except.error Err.clientNotFound ∧
    (LoadAuthorize (okConn emptyDB) "nope" 0).1 =
      Except.error Err.authorizeNotFound ∧
    (LoadAccess (okConn emptyDB) "nope" 0).1 =
      Except.error Err.accessNotFound ∧
    (LoadRefresh (okConn emptyDB) "nope" 0).1 =
      Except.error Err.refreshNotFound := by
  have h := lookup_notFound_per_entity (okConn emptyDB) "nope" 0 (fun _ => rfl)
  exact ⟨h.1 rfl, h.2.1 rfl, h.2.2.1 rfl, h.2.2.2 rfl⟩

/-- C7: for each entity kind, a successful save followed by the matching
load/get on the same key (with all store calls succeeding, a serializable
record, and — for the expiring kinds — a read before the expiry instant)
returns a record structurally equal to the one saved. -/
theorem save_then_load_roundtrip :
    (∀ (c : Conn) (cl : DefaultClient),
      (∀ n, c.failures n = none) → cl.serializableB = true →
      (CreateClient c cl).1 = .ok () ∧
      (GetClient (CreateClient c cl).2 cl.id).1 = Except.ok cl) ∧
    (∀ (c : Conn) (ad : AuthorizeData) (now : Int),
      (∀ n, c.failures n = none) → ad.serializableB = true →
      ¬ ad.expireAt < now →
      (SaveAuthorize c ad).1 = .ok () ∧
      (LoadAuthorize (SaveAuthorize c ad).2 ad.code now).1 = Except.ok ad) ∧
    (∀ (c : Conn) (a : AccessData) (now : Int),
      (∀ n, c.failures n = none) → a.serializableB = true →
      "json" ∉ projKeys a.userData → ¬ a.expireAt < now →
      (SaveAccess c a).1 = .ok () ∧
      (LoadAccess (SaveAccess c a).2 a.accessToken now).1 = Except.ok a) ∧
    (∀ (c : Conn) (a : AccessData) (now : Int),
      (∀ n, c.failures n = none) → a.serializableB = true →
      ¬ a.expireAt < now →
      (SaveRefresh c a).1 = .ok () ∧
      (LoadRefresh (SaveRefresh c a).2 a.refreshToken now).1 = Except.ok a) := by
  refine ⟨?_, ?_, ?_, ?_⟩
  · intro c cl hok hser
    refine ⟨?_, ?_⟩ <;>
      simp [CreateClient, GetClient, dbCall, tblPut, itemGet,
        marshalClient, unmarshalClient, hok, hser]
  · intro c ad now hok hser hexp
    refine ⟨?_, ?_⟩ <;>
      simp [SaveAuthorize, LoadAuthorize, dbCall, tblPut, itemGet,
        marshalAuthorize, unmarshalAuthorize, hok, hser, hexp]
  · intro c a now hok hser hjson hexp
    refine ⟨?_, ?_⟩ <;>
      by_cases hrt : a.refreshToken = "" <;>
      simp [SaveAccess, SaveRefresh, LoadAccess, dbCall, tblPut, itemGet,
        marshalAccess, unmarshalAccess,
        mergeUserData_get_of_not_mem _ _ _ hjson, hok, hser, hexp, hrt]
  · intro c a now hok hser hexp
    refine ⟨?_, ?_⟩ <;>
      simp [SaveRefresh, LoadRefresh, dbCall, tblPut, itemGet,
        marshalAccess, unmarshalAccess, hok, hser, hexp]

/-- The authorization-code record of the repository's TestAuthorize
scenario. -/
def authorizeEx : AuthorizeData :=
  { client := clientEx, code := "9999", expiresIn := 3600, scope := "",
    redirectUri := "/dev/null", state := "", createdAt := 0,
    userData := .empty }

theorem save_then_load_roundtrip_witness :
    ((CreateClient (okConn emptyDB) clientEx).1 = .ok () ∧
      (GetClient (CreateClient (okConn emptyDB) clientEx).2 clientEx.id).1 =
        Except.ok clientEx) ∧
    ((SaveAuthorize (okConn emptyDB) authorizeEx).1 = .ok () ∧
      (LoadAuthorize (SaveAuthorize (okConn emptyDB) authorizeEx).2
        authorizeEx.code 0).1 = Except.ok authorizeEx) ∧
    ((SaveAccess (okConn emptyDB) accessEx).1 = .ok () ∧
      (LoadAccess (SaveAccess (okConn emptyDB) accessEx).2
        accessEx.accessToken 0).1 = Except.ok accessEx) ∧
    ((SaveRefresh (okConn emptyDB) accessEx).1 = .ok () ∧
      (LoadRefresh (SaveRefresh (okConn emptyDB) accessEx).2
        accessEx.refreshToken 0).1 = Except.ok accessEx) :=
  ⟨save_then_load_roundtrip.1 (okConn emptyDB) clientEx (fun _ => rfl) rfl,
   save_then_load_roundtrip.2.1 (okConn emptyDB) authorizeEx 0
     (fun _ => rfl) rfl (by decide),
   save_then_load_roundtrip.2.2.1 (okConn emptyDB) accessEx 0
     (fun _ => rfl) rfl (by decide) (by decide),
   save_then_load_roundtrip.2.2.2 (okConn emptyDB) accessEx 0
     (fun _ => rfl) rfl (by decide)⟩

/-- C8: CreateClient performs no existence check and overwrites an existing
record with the same id: after creating cl1 and then cl2 with cl2.id =
cl1.id, GetClient on that id returns cl2. -/
theorem createClient_overwrites
    (c : Conn) (cl1 cl2 : DefaultClient)
    (hok : ∀ n, c.failures n = none)
    (hser1 : cl1.serializableB = true)
    (hser2 : cl2.serializableB = true)
    (hid : cl2.id = cl1.id) :
    (CreateClient c cl1).1 = .ok () ∧
    (CreateClient (CreateClient c cl1).2 cl2).1 = .ok () ∧
    (GetClient (CreateClient (CreateClient c cl1).2 cl2).2 cl1.id).1 =
      Except.ok cl2 := by
  refine ⟨?_, ?_, ?_⟩ <;>
    simp [CreateClient, GetClient, dbCall, tblPut, itemGet,
      marshalClient, unmarshalClient, hok, hser1, hser2, hid]

def clientEx2 : DefaultClient :=
  { id := "1234", secret := "eeff0011", redirectUri := "/tmp",
    userData := .empty }

theorem createClient_overwrites_witness :
    (CreateClient (okConn emptyDB) clientEx).1 = .ok () ∧
    (CreateClient (CreateClient (okConn emptyDB) clientEx).2 clientEx2).1 =
      .ok () ∧
    (GetClient (CreateClient (CreateClient (okConn emptyDB) clientEx).2
      clientEx2).2 clientEx.id).1 = Except.ok clientEx2 :=
  createClient_overwrites (okConn emptyDB) clientEx clientEx2
    (fun _ => rfl) rfl rfl rfl

/-- The oracle whose j-th store call fails with error e and all other calls
succeed. -/
def failCallAt (j e : Nat) : Nat → Option Nat :=
  fun n => if n = j then some e else none

/-- C9: whichever of CreateSchema's eight control-plane calls (a CreateTable
or a WaitUntilTableExists per table, in the order access, authorize, client,
refresh) fails first, CreateSchema stops right there (exactly j+1 calls were
issued), returns that store error unchanged, and the tables created before
the failure are left in place: the first (j+1)/2 of the creation order. -/
theorem createSchema_aborts_on_control_plane_error
    (cfg : StorageConfig) (e : Nat) (j : Fin 8) :
    (CreateSchema (connWith emptyDB (failCallAt j e)) cfg).1 =
      Except.error (Err.store e) ∧
    (CreateSchema (connWith emptyDB (failCallAt j e)) cfg).2.tables =
      (schemaTableOrder cfg).take ((j + 1) / 2) ∧
    (CreateSchema (connWith emptyDB (failCallAt j e)) cfg).2.calls = j + 1 := by
  fin_cases j <;> exact ⟨rfl, rfl, rfl⟩

/-- C10: when serialization of the record fails, each of the four save
operations returns the marshal error with the connection in its exact
original state: no store call was issued and no table changed. -/
theorem serialization_failure_leaves_store_unchanged :
    (∀ (c : Conn) (cl : DefaultClient), cl.serializableB = false →
      CreateClient c cl = (Except.error Err.marshal, c)) ∧
    (∀ (c : Conn) (ad : AuthorizeData), ad.serializableB = false →
      SaveAuthorize c ad = (Except.error Err.marshal, c)) ∧
    (∀ (c : Conn) (a : AccessData), a.serializableB = false →
      SaveAccess c a = (Except.error Err.marshal, c)) ∧
    (∀ (c : Conn) (a : AccessData), a.serializableB = false →
      SaveRefresh c a = (Except.error Err.marshal, c)) := by
  refine ⟨?_, ?_, ?_, ?_⟩ <;> intro c x h <;>
    simp [CreateClient, SaveAuthorize, SaveAccess, SaveRefresh,
      marshalClient, marshalAuthorize, marshalAccess, h]

def clientBad : DefaultClient :=
  { id := "1234", secret := "aabbccdd", redirectUri := "/dev/null",
    userData := .unserializable }

def authorizeBad : AuthorizeData :=
  { authorizeEx with userData := .unserializable }

def accessBad : AccessData :=
  .mk clientEx none none "1" "r9999" 3600 "" "/dev/null" 0 .unserializable

theorem serialization_failure_leaves_store_unchanged_witness :
    CreateClient (okConn emptyDB) clientBad =
      (Except.error Err.marshal, okConn emptyDB) ∧
    SaveAuthorize (okConn emptyDB) authorizeBad =
      (Except.error Err.marshal, okConn emptyDB) ∧
    SaveAccess (okConn emptyDB) accessBad =
      (Except.error Err.marshal, okConn emptyDB) ∧
    SaveRefresh (okConn emptyDB) accessBad =
      (Except.error Err.marshal, okConn emptyDB) :=
  ⟨serialization_failure_leaves_store_unchanged.1 (okConn emptyDB)
      clientBad rfl,
   serialization_failure_leaves_store_unchanged.2.1 (okConn emptyDB)
      authorizeBad rfl,
   serialization_failure_leaves_store_unchanged.2.2.1 (okConn emptyDB)
      accessBad rfl,
   serialization_failure_leaves_store_unchanged.2.2.2 (okConn emptyDB)
      accessBad rfl⟩
